import Mathlib

/-!
Verification of the BLE notification/command bridge example scripts
(`examples/devel_notifications.py` and `examples/enable_response.py`).

The scripts move UTF-8 text payloads from a BLE notification callback
through a `multiprocessing.Queue` to a loop that writes commands to an
LED GATT characteristic.  We shallowly embed the deciding code paths:

* Python `str` values are lists of Unicode characters (`PyStr`);
* byte payloads are lists of naturals below 256;
* Python `float(...)` applied to a plain decimal literal is modelled
  exactly over `ℚ` (built with `mkRat` so that terms evaluate in the
  kernel); the model covers optional surrounding whitespace, an optional
  sign, integer/fraction digits and an optional decimal exponent, which
  is the fragment the scripts' payloads use (it omits `inf`/`nan` and
  underscore separators, which no claim exercises);
* each `print`/`logger` call, GATT write and `asyncio.sleep` becomes an
  explicit `Event`, so ordering and rate-limiting behaviour is visible
  in traces;
* a `try`/`except` block is a total function wrapped around a body that
  returns `Except PyError`.
-/

namespace ThesisBLE

/-- Python `str`: a sequence of Unicode code points. -/
abbrev PyStr := List Char

/-- Whitespace characters stripped by Python `str.strip()` and ignored by
`float()` (ASCII subset: space, tab, newline, carriage return, vertical
tab, form feed). -/
def isPySpace (c : Char) : Bool :=
  c = ' ' || c = '\t' || c = '\n' || c = '\r' || c = Char.ofNat 11 || c = Char.ofNat 12

/-- Model of Python `str.strip()`: drop leading and trailing whitespace. -/
def pyStripWS (l : PyStr) : PyStr :=
  ((l.dropWhile isPySpace).reverse.dropWhile isPySpace).reverse

/-- Decimal digit test. -/
def isDigitC (c : Char) : Bool := '0' ≤ c && c ≤ '9'

/-- Numeric value of a decimal digit character. -/
def digitVal (c : Char) : ℕ := c.toNat - '0'.toNat

/-- Value of a string of decimal digits, most significant first. -/
def natOfDigits (l : PyStr) : ℕ := l.foldl (fun a c => 10 * a + digitVal c) 0

/-- Strip one optional leading sign, returning whether it was `-` and the
remaining characters. -/
def splitSign : PyStr → Bool × PyStr
  | [] => (false, [])
  | c :: r => if c = '-' then (true, r) else if c = '+' then (false, r) else (false, c :: r)

/-- Exponent marker characters accepted by Python `float()`. -/
def isExpChar (c : Char) : Bool := c = 'e' || c = 'E'

/-- Parse the digits of a mantissa, `digits [. digits]`, requiring at least
one digit and full consumption of the input.  Returns the digit value
together with the number of fraction digits (the power-of-ten scale). -/
def parseMantissa (l : PyStr) : Option (ℕ × ℕ) :=
  match l.dropWhile isDigitC with
  | [] =>
    if (l.takeWhile isDigitC).isEmpty then none
    else some (natOfDigits (l.takeWhile isDigitC), 0)
  | c :: r2 =>
    if c = '.' then
      if r2.all isDigitC && !((l.takeWhile isDigitC).isEmpty && r2.isEmpty) then
        some (natOfDigits (l.takeWhile isDigitC) * 10 ^ r2.length + natOfDigits r2, r2.length)
      else none
    else none

/-- Parse an exponent part (after the `e`/`E`): optional sign then at least
one digit. -/
def parseExpPart (l : PyStr) : Option ℤ :=
  let sg := splitSign l
  if !sg.2.isEmpty && sg.2.all isDigitC then
    some (if sg.1 then -(natOfDigits sg.2 : ℤ) else (natOfDigits sg.2 : ℤ))
  else none

/-- Exact rational value of a parsed decimal literal: sign, mantissa digit
value, fraction scale and decimal exponent.  Built with a single `mkRat`
so the kernel can evaluate it. -/
def decimalValue (neg : Bool) (mantNum scale : ℕ) (k : ℤ) : ℚ :=
  let sn : ℤ := if neg then -(mantNum : ℤ) else (mantNum : ℤ)
  if 0 ≤ k then mkRat (sn * 10 ^ k.toNat) (10 ^ scale)
  else mkRat sn (10 ^ (scale + (-k).toNat))

/-- Model of Python `float(s)` on decimal literals: optional whitespace,
optional sign, `digits [. digits] [(e|E) [sign] digits]`, yielding the
exact rational value; anything else fails (raising `ValueError` in
Python). -/
def parseFloat? (s : PyStr) : Option ℚ :=
  let t := pyStripWS s
  let sg := splitSign t
  let m := sg.2.takeWhile (fun c => !isExpChar c)
  let r := sg.2.dropWhile (fun c => !isExpChar c)
  match r with
  | [] =>
    match parseMantissa m with
    | some md => some (decimalValue sg.1 md.1 md.2 0)
    | none => none
  | _ :: expChars =>
    match parseMantissa m, parseExpPart expChars with
    | some md, some k => some (decimalValue sg.1 md.1 md.2 k)
    | _, _ => none

/-- Model of Python `message.split(",")`: split at every comma, keeping
empty pieces (so `"".split(",") == [""]`). -/
def splitOnComma : PyStr → List PyStr
  | [] => [[]]
  | c :: r =>
    if c = ',' then [] :: splitOnComma r
    else
      match splitOnComma r with
      | [] => [[c]]
      | p :: ps => (c :: p) :: ps

/-- Model of `gx, gy, gz, ax, ay, az = map(float, message.split(","))` in
`process_queue_and_write`: succeeds only when there are exactly six
comma-separated fields and every field parses as a float; any failure
raises `ValueError` in Python, modelled as `none` (all-or-nothing, no
partial reading). -/
def parseSensor (m : PyStr) : Option (ℚ × ℚ × ℚ × ℚ × ℚ × ℚ) :=
  match splitOnComma m with
  | [f1, f2, f3, f4, f5, f6] => do
    let gx ← parseFloat? f1
    let gy ← parseFloat? f2
    let gz ← parseFloat? f3
    let ax ← parseFloat? f4
    let ay ← parseFloat? f5
    let az ← parseFloat? f6
    pure (gx, gy, gz, ax, ay, az)
  | _ => none

/-- UTF-8 encoding of one Unicode scalar value (Python `str.encode("utf-8")`
per character). -/
def utf8EncodeChar (c : Char) : List ℕ :=
  let n := c.toNat
  if n < 0x80 then [n]
  else if n < 0x800 then [0xC0 + n / 0x40, 0x80 + n % 0x40]
  else if n < 0x10000 then
    [0xE0 + n / 0x1000, 0x80 + (n / 0x40) % 0x40, 0x80 + n % 0x40]
  else
    [0xF0 + n / 0x40000, 0x80 + (n / 0x1000) % 0x40, 0x80 + (n / 0x40) % 0x40, 0x80 + n % 0x40]

/-- Model of Python `s.encode("utf-8")`. -/
def utf8Encode (s : PyStr) : List ℕ := s.flatMap utf8EncodeChar

/-- Continuation byte test (`0x80 ≤ b < 0xC0`). -/
def contByte (b : ℕ) : Bool := 0x80 ≤ b && b < 0xC0

/-- Payload bits of a continuation byte. -/
def contVal (b : ℕ) : ℕ := b % 0x40

/-- One strict UTF-8 decoding step loop, with fuel bounded by the input
length (each step consumes at least one byte).  Rejects continuation
bytes in lead position, overlong encodings, surrogates and values above
`U+10FFFF`, matching Python `bytes.decode("utf-8")`. -/
def utf8DecodeAux : ℕ → List ℕ → Option PyStr
  | _, [] => some []
  | 0, _ :: _ => none
  | fuel + 1, b :: rest =>
    if b < 0x80 then
      (utf8DecodeAux fuel rest).map (fun t => Char.ofNat b :: t)
    else if b < 0xC2 then none
    else if b < 0xE0 then
      match rest with
      | b1 :: r =>
        if contByte b1 then
          (utf8DecodeAux fuel r).map (fun t => Char.ofNat ((b % 0x20) * 0x40 + contVal b1) :: t)
        else none
      | [] => none
    else if b < 0xF0 then
      match rest with
      | b1 :: b2 :: r =>
        if (if b = 0xE0 then 0xA0 else 0x80) ≤ b1 &&
           b1 < (if b = 0xED then 0xA0 else 0xC0) && contByte b2 then
          (utf8DecodeAux fuel r).map
            (fun t => Char.ofNat ((b % 0x10) * 0x1000 + contVal b1 * 0x40 + contVal b2) :: t)
        else none
      | _ => none
    else if b < 0xF5 then
      match rest with
      | b1 :: b2 :: b3 :: r =>
        if (if b = 0xF0 then 0x90 else 0x80) ≤ b1 &&
           b1 < (if b = 0xF4 then 0x90 else 0xC0) && contByte b2 && contByte b3 then
          (utf8DecodeAux fuel r).map
            (fun t => Char.ofNat
              ((b % 8) * 0x40000 + contVal b1 * 0x1000 + contVal b2 * 0x40 + contVal b3) :: t)
        else none
      | _ => none
    else none

/-- Model of Python `data.decode("utf-8")`: `none` models a raised
`UnicodeDecodeError`. -/
def utf8Decode (bs : List ℕ) : Option PyStr := utf8DecodeAux bs.length bs

/-- Boolean test that `pat` occurs at the start of `text`. -/
def startsWith : PyStr → PyStr → Bool
  | [], _ => true
  | _ :: _, [] => false
  | c :: p, d :: t => c = d && startsWith p t

/-- Boolean test that `pat` occurs contiguously somewhere in `text`;
models Python's `pat in text` on strings. -/
def containsSeq (pat : PyStr) : PyStr → Bool
  | [] => pat.isEmpty
  | d :: t => startsWith pat (d :: t) || containsSeq pat t

/-- The command keyword tested by `if "BLINK" in message`. -/
def blinkKeyword : PyStr := "BLINK".data

/-- Model of `"BLINK" in message`. -/
def containsBlink (m : PyStr) : Bool := containsSeq blinkKeyword m

/-- Observable log messages emitted through `print`/`logger` by the two
scripts, one constructor per call site. -/
inductive LogEvent where
  | receivedCommand
  | sentCommand
  | parsedIMU
  | valueErrorCaught
  | unexpectedErrorCaught
  | notificationReceived
  | notificationError
  | deviceNotFoundMsg
  | connectedMsg
  | sendingCommand
  deriving DecidableEq

/-- Observable effects of one loop iteration: a GATT write of encoded
bytes, an `asyncio.sleep` of a whole number of seconds, or a log line. -/
inductive Event where
  | write (bytes : List ℕ)
  | sleep (seconds : ℕ)
  | log (e : LogEvent)
  deriving DecidableEq

/-- Python exceptions relevant to these scripts. -/
inductive PyError where
  | valueError
  | unicodeDecodeError
  | typeError
  deriving DecidableEq

/-- Model of `"BLINK_1S" if gx > 0.50 else "BLINK_5S"` (the decimal literal
`0.50` is exactly `mkRat 1 2`). -/
def decideCommand (gx : ℚ) : PyStr :=
  if gx > mkRat 1 2 then "BLINK_1S".data else "BLINK_5S".data

/-- Body of the `try` block in `process_queue_and_write` for one dequeued
message: command pass-through when the message contains `"BLINK"`,
otherwise parse six floats and write the threshold decision; a parse
failure raises `ValueError`. -/
def processBody (message : PyStr) : Except PyError (List Event) :=
  if containsBlink message then
    .ok [.log .receivedCommand, .write (utf8Encode message), .log .sentCommand]
  else
    match parseSensor message with
    | some r =>
      .ok [.log .parsedIMU, .write (utf8Encode (pyStripWS (decideCommand r.1))),
           .log .sentCommand]
    | none => .error .valueError

/-- One iteration of `process_queue_and_write` on a dequeued message:
the `try` body with `except ValueError` / `except Exception` handlers
printing an error, then the `finally: await asyncio.sleep(1)`. -/
def processMessage (message : PyStr) : List Event :=
  (match processBody message with
   | .ok evs => evs
   | .error .valueError => [.log .valueErrorCaught]
   | .error _ => [.log .unexpectedErrorCaught]) ++ [.sleep 1]

/-- Trace of the `process_queue_and_write` loop while it consumes the
given queued messages in FIFO order. -/
def process_queue_and_write (queueItems : List PyStr) : List Event :=
  queueItems.flatMap processMessage

/-- Model of `multiprocessing.Queue.put`: the queue is created with
`Queue()` (no `maxsize`), so a put always appends at the tail and never
blocks or drops. -/
def queuePut (q : List PyStr) (m : PyStr) : List PyStr := q ++ [m]

/-- Body of the notification handler in `notification_handler_with_queue`:
decode the payload as UTF-8, log it and enqueue it; a bad payload raises
`UnicodeDecodeError`. -/
def handlerBody (q : List PyStr) (data : List ℕ) :
    Except PyError (List PyStr × List Event) :=
  match utf8Decode data with
  | some s => .ok (queuePut q s, [.log .notificationReceived])
  | none => .error .unicodeDecodeError

/-- One invocation of the notification handler with its
`except Exception` boundary: on any error the queue is left unchanged and
an error is logged; nothing propagates to the BLE callback context. -/
def handler (q : List PyStr) (data : List ℕ) : List PyStr × List Event :=
  match handlerBody q data with
  | .ok r => r
  | .error _ => (q, [.log .notificationError])

/-- Number of dropped readings recorded in a trace: the scripts record
each drop by logging an error (`logger.error` in the handler,
`print` of the caught `ValueError` in the write loop). -/
def dropCount (evs : List Event) : ℕ :=
  evs.countP (fun e =>
    decide (e = .log .notificationError) || decide (e = .log .valueErrorCaught))

/-- The GATT writes appearing in a trace, in order. -/
def writesOf (evs : List Event) : List (List ℕ) :=
  evs.filterMap (fun e => match e with | .write bs => some bs | _ => none)

/-- Trace of `devel_notifications.main`'s command loop while it consumes
the given queued items: each dequeued item is logged and written verbatim
(UTF-8 encoded) to the LED characteristic, then the loop sleeps one
second. -/
def devel_command_loop : List PyStr → List Event
  | [] => []
  | m :: rest =>
    .log .sendingCommand :: .write (utf8Encode m) :: .sleep 1 :: devel_command_loop rest

/-- Events of a trace after (and excluding) the first GATT write. -/
def dropThroughFirstWrite : List Event → List Event
  | [] => []
  | e :: r => match e with | .write _ => r | _ => dropThroughFirstWrite r

/-- Events of a trace before the first GATT write. -/
def takeUntilWrite : List Event → List Event
  | [] => []
  | e :: r => match e with | .write _ => [] | _ => e :: takeUntilWrite r

/-- Total seconds slept in a trace. -/
def sleepSum (evs : List Event) : ℕ :=
  (evs.filterMap (fun e => match e with | .sleep n => some n | _ => none)).sum

/-- Seconds slept between the first and the second GATT write of a trace. -/
def delayBetweenFirstTwoWrites (evs : List Event) : ℕ :=
  sleepSum (takeUntilWrite (dropThroughFirstWrite evs))

/-- A command-line invocation of either script, identified by which of the
two device-selector flags were supplied. -/
structure CLIInvocation where
  name : Option PyStr
  address : Option PyStr
  deriving DecidableEq

/-- Model of argparse acceptance of a single optional flag. -/
def argRequiredOK (required : Bool) (given : Bool) : Bool := !required || given

/-- Model of argparse acceptance of a mutually exclusive group: at most one
member given, and at least one when the group is required. -/
def mutexGroupOK (required : Bool) (given : List Bool) : Bool :=
  decide (given.countP id ≤ 1) && argRequiredOK required (given.any id)

/-- Acceptance of `devel_notifications.py`'s parser: `--name` and
`--address` form a mutually exclusive group with `required=True`. -/
def develAccepts (i : CLIInvocation) : Bool :=
  mutexGroupOK true [i.name.isSome, i.address.isSome]

/-- Acceptance of `enable_response.py`'s parser: `--name` is declared with
`required=True` and `--address` is an ordinary optional flag (no
exclusivity group). -/
def enableAccepts (i : CLIInvocation) : Bool :=
  argRequiredOK true i.name.isSome && argRequiredOK false i.address.isSome

/-- Exactly one of the two device selectors supplied. -/
def exactlyOneSelector (i : CLIInvocation) : Bool :=
  (i.name.isSome && !i.address.isSome) || (!i.name.isSome && i.address.isSome)

/-- Result of the device scan at the start of either `main`. -/
inductive LinkScan where
  | found
  | notFound
  deriving DecidableEq

/-- How a `main` coroutine ends: a normal early `return`, or entering the
unbounded service loop. -/
inductive MainOutcome where
  | returned
  | loops
  deriving DecidableEq

/-- Model of `enable_response.main`: when the scan finds no device it
prints `Device ... not found.` and returns `None`; otherwise it connects
and runs `process_queue_and_write`, which never returns normally. -/
def enable_main (scan : LinkScan) : MainOutcome × List Event :=
  match scan with
  | .notFound => (.returned, [.log .deviceNotFoundMsg])
  | .found => (.loops, [.log .connectedMsg])

/-- Exit code of the `enable_response.py` process as a function of the
scan result: `asyncio.run(main(...))` returning normally leads to the end
of the script and exit code 0; when `main` loops forever there is no
exit. -/
def enableScriptExit (scan : LinkScan) : Option ℕ :=
  match (enable_main scan).1 with
  | .returned => some 0
  | .loops => none

/-- Model of `devel_notifications.main` (invoked with its six parameters):
when the scan cannot resolve the selector it logs
`Could not find device ...` and returns `None`; otherwise it connects and
enters the notification/command loop. -/
def devel_main_scan (scan : LinkScan) : MainOutcome × List Event :=
  match scan with
  | .notFound => (.returned, [.log .deviceNotFoundMsg])
  | .found => (.loops, [.log .connectedMsg])

/-- Parameters of `devel_notifications.main`, none of which has a default
value. -/
def develMainParams : List String :=
  ["name", "address", "characteristic", "led_characteristic", "use_bdaddr", "queue"]

/-- Positional arguments supplied by the entry point of
`devel_notifications.py`: `asyncio.run(main(args, queue))`. -/
def develEntryArgs : List String := ["args", "queue"]

/-- Result of calling a Python function: a `TypeError` when the argument
count does not match the required parameter count, otherwise the call
proceeds. -/
inductive CallResult where
  | typeError
  | invoked
  deriving DecidableEq

/-- Python call arity check: calling a function whose parameters all lack
defaults with a different number of positional arguments raises
`TypeError` before the body (here: before the coroutine exists). -/
def pyCallCheck (paramCount argCount : ℕ) : CallResult :=
  if argCount = paramCount then .invoked else .typeError

/-- The call `main(args, queue)` at the bottom of
`devel_notifications.py`. -/
def develEntryCall : CallResult :=
  pyCallCheck develMainParams.length develEntryArgs.length

/-- How running a script ends at startup. -/
inductive ScriptResult where
  | argparseExit (code : ℕ)
  | raised (e : PyError)
  | running
  deriving DecidableEq

/-- Startup of `devel_notifications.py` run directly: argparse first (a
rejected invocation exits with code 2), then the entry call
`asyncio.run(main(args, queue))`.  The second component counts BLE scans
started before the result. -/
def develScriptStart (i : CLIInvocation) : ScriptResult × ℕ :=
  if develAccepts i then
    match develEntryCall with
    | .typeError => (.raised .typeError, 0)
    | .invoked => (.running, 1)
  else (.argparseExit 2, 0)

/-- Characters that can appear in a string accepted by the float parser. -/
def floatChar (c : Char) : Bool :=
  isDigitC c || c = '.' || c = '+' || c = '-' || isExpChar c || isPySpace c

/-- Membership survives `dropWhile` unless the dropped predicate held. -/
theorem mem_dropWhile_or (p : Char → Bool) (l : PyStr) (c : Char) (h : c ∈ l) :
    p c = true ∨ c ∈ l.dropWhile p := by
  induction l with
  | nil => cases h
  | cons a t ih =>
    rw [List.dropWhile_cons]
    by_cases hp : p a = true
    · simp only [hp, if_true]
      rcases List.mem_cons.mp h with rfl | ht
      · exact Or.inl hp
      · exact ih ht
    · simp only [hp, if_false]
      exact Or.inr h

/-- Every character of a string is whitespace or survives stripping. -/
theorem mem_pyStripWS (s : PyStr) (c : Char) (h : c ∈ s) :
    isPySpace c = true ∨ c ∈ pyStripWS s := by
  rcases mem_dropWhile_or isPySpace s c h with h1 | h1
  · exact Or.inl h1
  · have h2 : c ∈ (s.dropWhile isPySpace).reverse := List.mem_reverse.mpr h1
    rcases mem_dropWhile_or isPySpace _ c h2 with h3 | h3
    · exact Or.inl h3
    · exact Or.inr (by simpa [pyStripWS] using h3)

/-- Every character of a string is a sign character or survives
`splitSign`. -/
theorem mem_splitSign (s : PyStr) (c : Char) (h : c ∈ s) :
    c = '-' ∨ c = '+' ∨ c ∈ (splitSign s).2 := by
  match s with
  | [] => cases h
  | a :: r =>
    simp only [splitSign]
    by_cases h1 : a = '-'
    · subst h1
      rw [if_pos rfl]
      rcases List.mem_cons.mp h with rfl | ht
      · exact Or.inl rfl
      · exact Or.inr (Or.inr ht)
    · rw [if_neg h1]
      by_cases h2 : a = '+'
      · subst h2
        rw [if_pos rfl]
        rcases List.mem_cons.mp h with rfl | ht
        · exact Or.inr (Or.inl rfl)
        · exact Or.inr (Or.inr ht)
      · rw [if_neg h2]
        exact Or.inr (Or.inr h)

/-- The head of a nonempty `dropWhile` result falsifies the predicate. -/
theorem dropWhile_head_eq_false (p : Char → Bool) (l : PyStr) (c : Char) (r : PyStr)
    (h : l.dropWhile p = c :: r) : p c = false := by
  induction l with
  | nil => simp [List.dropWhile] at h
  | cons a t ih =>
    rw [List.dropWhile_cons] at h
    by_cases hp : p a = true
    · simp only [hp, if_true] at h
      exact ih h
    · simp only [hp, if_false] at h
      cases h
      simpa using hp

/-- A successfully parsed mantissa consists of digits and dots only. -/
theorem mem_parseMantissa (l : PyStr) (md : ℕ × ℕ) (hp : parseMantissa l = some md)
    (c : Char) (h : c ∈ l) : isDigitC c = true ∨ c = '.' := by
  have hsplit : l.takeWhile isDigitC ++ l.dropWhile isDigitC = l :=
    List.takeWhile_append_dropWhile _ _
  cases hd : l.dropWhile isDigitC with
  | nil =>
    rw [hd] at hsplit
    have hmem : c ∈ l.takeWhile isDigitC := by
      rw [← hsplit] at h
      simpa using h
    exact Or.inl (List.mem_takeWhile_imp hmem)
  | cons a r2 =>
    by_cases ha : a = '.'
    case neg =>
      have hnone : parseMantissa l = none := by
        simp [parseMantissa, hd, ha]
      rw [hnone] at hp
      cases hp
    case pos =>
      subst ha
      by_cases hall : (r2.all isDigitC && !((l.takeWhile isDigitC).isEmpty && r2.isEmpty)) = true
      case neg =>
        have hall2 : (r2.all isDigitC && !((l.takeWhile isDigitC).isEmpty && r2.isEmpty)) = false := by
          simpa using hall
        have hnone : parseMantissa l = none := by
          simp only [parseMantissa, hd, hall2]
          simp
        rw [hnone] at hp
        cases hp
      case pos =>
        simp only [Bool.and_eq_true] at hall
        rw [hd] at hsplit
        rw [← hsplit] at h
        rcases List.mem_append.mp h with h1 | h1
        · exact Or.inl (List.mem_takeWhile_imp h1)
        · rcases List.mem_cons.mp h1 with rfl | h2
          · exact Or.inr rfl
          · exact Or.inl (List.all_eq_true.mp hall.1 c h2)

/-- A successfully parsed exponent part consists of digits and signs. -/
theorem mem_parseExpPart (l : PyStr) (k : ℤ) (hp : parseExpPart l = some k)
    (c : Char) (h : c ∈ l) : isDigitC c = true ∨ c = '-' ∨ c = '+' := by
  by_cases hc : (!(splitSign l).2.isEmpty && (splitSign l).2.all isDigitC) = true
  · simp only [Bool.and_eq_true] at hc
    rcases mem_splitSign l c h with rfl | rfl | h2
    · exact Or.inr (Or.inl rfl)
    · exact Or.inr (Or.inr rfl)
    · exact Or.inl (List.all_eq_true.mp hc.2 c h2)
  · have hnone : parseExpPart l = none := by
      simp only [parseExpPart]
      rw [if_neg hc]
    rw [hnone] at hp
    cases hp

/-- Every character of a string accepted by the float parser is a digit,
sign, dot, exponent marker or whitespace. -/
theorem parseFloat_chars (s : PyStr) (q : ℚ) (hp : parseFloat? s = some q)
    (c : Char) (hc : c ∈ s) : floatChar c = true := by
  rcases mem_pyStripWS s c hc with h1 | h1
  · simp [floatChar, h1]
  rcases mem_splitSign (pyStripWS s) c h1 with rfl | rfl | h2
  · simp [floatChar]
  · simp [floatChar]
  have hsplit :
      (splitSign (pyStripWS s)).2.takeWhile (fun c => !isExpChar c) ++
        (splitSign (pyStripWS s)).2.dropWhile (fun c => !isExpChar c) =
        (splitSign (pyStripWS s)).2 := List.takeWhile_append_dropWhile _ _
  rw [← hsplit] at h2
  have hmant : ∀ md,
      parseMantissa ((splitSign (pyStripWS s)).2.takeWhile (fun c => !isExpChar c)) = some md →
      c ∈ (splitSign (pyStripWS s)).2.takeWhile (fun c => !isExpChar c) →
      floatChar c = true := by
    intro md hm h3
    rcases mem_parseMantissa _ md hm c h3 with h4 | rfl
    · simp [floatChar, h4]
    · simp [floatChar]
  cases hr : (splitSign (pyStripWS s)).2.dropWhile (fun c => !isExpChar c) with
  | nil =>
    cases hm : parseMantissa ((splitSign (pyStripWS s)).2.takeWhile (fun c => !isExpChar c)) with
    | none =>
      have hnone : parseFloat? s = none := by
        simp [parseFloat?, hr, hm]
      rw [hnone] at hp
      cases hp
    | some md =>
      rw [hr] at h2
      have h3 : c ∈ (splitSign (pyStripWS s)).2.takeWhile (fun c => !isExpChar c) := by
        simpa using h2
      exact hmant md hm h3
  | cons e expChars =>
    have he : isExpChar e = true := by
      have h0 := dropWhile_head_eq_false (fun c => !isExpChar c) _ e expChars hr
      simpa using h0
    cases hm : parseMantissa ((splitSign (pyStripWS s)).2.takeWhile (fun c => !isExpChar c)) with
    | none =>
      have hnone : parseFloat? s = none := by
        simp [parseFloat?, hr, hm]
      rw [hnone] at hp
      cases hp
    | some md =>
      cases hk : parseExpPart expChars with
      | none =>
        have hnone : parseFloat? s = none := by
          simp [parseFloat?, hr, hm, hk]
        rw [hnone] at hp
        cases hp
      | some k =>
        rw [hr] at h2
        rcases List.mem_append.mp h2 with h3 | h3
        · exact hmant md hm h3
        · rcases List.mem_cons.mp h3 with rfl | h4
          · simp [floatChar, he]
          · rcases mem_parseExpPart expChars k hk c h4 with h5 | rfl | rfl
            · simp [floatChar, h5]
            · simp [floatChar]
            · simp [floatChar]

/-- Splitting at commas never yields an empty list of pieces. -/
theorem splitOnComma_ne_nil (l : PyStr) : splitOnComma l ≠ [] := by
  cases l with
  | nil => simp [splitOnComma]
  | cons c r =>
    simp only [splitOnComma]
    by_cases h : c = ','
    · simp [h]
    · rw [if_neg h]
      cases hs : splitOnComma r <;> simp

/-- Every character of a string is a comma or belongs to one of its
comma-separated pieces. -/
theorem mem_splitOnComma (l : PyStr) (c : Char) (h : c ∈ l) :
    c = ',' ∨ ∃ p, p ∈ splitOnComma l ∧ c ∈ p := by
  induction l with
  | nil => cases h
  | cons a r ih =>
    by_cases ha : a = ','
    · subst ha
      rcases List.mem_cons.mp h with rfl | ht
      · exact Or.inl rfl
      · rcases ih ht with h1 | ⟨p, hp1, hp2⟩
        · exact Or.inl h1
        · exact Or.inr ⟨p, by simp [splitOnComma, hp1], hp2⟩
    · cases hs : splitOnComma r with
      | nil => exact absurd hs (splitOnComma_ne_nil r)
      | cons p0 ps =>
        have heq : splitOnComma (a :: r) = (a :: p0) :: ps := by
          simp [splitOnComma, if_neg ha, hs]
        rcases List.mem_cons.mp h with hca | ht
        · refine Or.inr ⟨a :: p0, ?_, ?_⟩
          · rw [heq]
            exact List.mem_cons_self _ _
          · rw [hca]
            exact List.mem_cons_self _ _
        · rcases ih ht with h1 | ⟨p, hp1, hp2⟩
          · exact Or.inl h1
          · rw [hs] at hp1
            rcases List.mem_cons.mp hp1 with hpp | hp3
            · refine Or.inr ⟨a :: p0, ?_, ?_⟩
              · rw [heq]
                exact List.mem_cons_self _ _
              · rw [← hpp]
                exact List.mem_cons.mpr (Or.inr hp2)
            · exact Or.inr ⟨p, by rw [heq]; exact List.mem_cons.mpr (Or.inr hp3), hp2⟩

/-- When a message parses as a sensor reading, every comma-separated field
of it parses as a float. -/
theorem parseSensor_fields (m : PyStr) (r : ℚ × ℚ × ℚ × ℚ × ℚ × ℚ)
    (h : parseSensor m = some r) (p : PyStr) (hp : p ∈ splitOnComma m) :
    ∃ q, parseFloat? p = some q := by
  unfold parseSensor at h
  rcases hs : splitOnComma m with _ | ⟨f1, rest⟩
  · exact absurd hs (splitOnComma_ne_nil m)
  rw [hs] at h hp
  rcases rest with _ | ⟨f2, rest⟩
  · simp at h
  rcases rest with _ | ⟨f3, rest⟩
  · simp at h
  rcases rest with _ | ⟨f4, rest⟩
  · simp at h
  rcases rest with _ | ⟨f5, rest⟩
  · simp at h
  rcases rest with _ | ⟨f6, rest⟩
  · simp at h
  rcases rest with _ | ⟨f7, rest⟩
  case cons.cons.cons.cons.cons.cons.cons => simp at h
  simp only [Option.bind_eq_bind] at h
  simp only [List.mem_cons, List.not_mem_nil, or_false] at hp
  cases hq1 : parseFloat? f1 with
  | none => simp only [hq1, Option.none_bind] at h; exact Option.noConfusion h
  | some q1 =>
    simp only [hq1, Option.some_bind] at h
    cases hq2 : parseFloat? f2 with
    | none => simp only [hq2, Option.none_bind] at h; exact Option.noConfusion h
    | some q2 =>
      simp only [hq2, Option.some_bind] at h
      cases hq3 : parseFloat? f3 with
      | none => simp only [hq3, Option.none_bind] at h; exact Option.noConfusion h
      | some q3 =>
        simp only [hq3, Option.some_bind] at h
        cases hq4 : parseFloat? f4 with
        | none => simp only [hq4, Option.none_bind] at h; exact Option.noConfusion h
        | some q4 =>
          simp only [hq4, Option.some_bind] at h
          cases hq5 : parseFloat? f5 with
          | none => simp only [hq5, Option.none_bind] at h; exact Option.noConfusion h
          | some q5 =>
            simp only [hq5, Option.some_bind] at h
            cases hq6 : parseFloat? f6 with
            | none => simp only [hq6, Option.none_bind] at h; exact Option.noConfusion h
            | some q6 =>
              rcases hp with rfl | rfl | rfl | rfl | rfl | rfl
              · exact ⟨q1, hq1⟩
              · exact ⟨q2, hq2⟩
              · exact ⟨q3, hq3⟩
              · exact ⟨q4, hq4⟩
              · exact ⟨q5, hq5⟩
              · exact ⟨q6, hq6⟩

/-- Characters of a matched pattern occur in the text it matches at the
start. -/
theorem mem_of_startsWith (p t : PyStr) (h : startsWith p t = true) (c : Char) (hc : c ∈ p) :
    c ∈ t := by
  induction p generalizing t with
  | nil => cases hc
  | cons a p ih =>
    cases t with
    | nil => simp [startsWith] at h
    | cons d t =>
      simp only [startsWith, Bool.and_eq_true, decide_eq_true_eq] at h
      rcases List.mem_cons.mp hc with hca | hc2
      · rw [hca, h.1]
        exact List.mem_cons_self _ _
      · exact List.mem_cons.mpr (Or.inr (ih t h.2 hc2))

/-- Characters of a contained pattern occur in the containing text. -/
theorem mem_of_containsSeq (p t : PyStr) (h : containsSeq p t = true) (c : Char) (hc : c ∈ p) :
    c ∈ t := by
  induction t with
  | nil =>
    cases p with
    | nil => cases hc
    | cons a q => simp [containsSeq] at h
  | cons d t ih =>
    simp only [containsSeq, Bool.or_eq_true] at h
    rcases h with h1 | h1
    · exact mem_of_startsWith p (d :: t) h1 c hc
    · exact List.mem_cons.mpr (Or.inr (ih h1))

/-- A message that parses as six sensor floats cannot contain the
`"BLINK"` keyword, so the parse branch and the pass-through branch of
`process_queue_and_write` are mutually exclusive. -/
theorem parseSensor_no_blink (m : PyStr) (r : ℚ × ℚ × ℚ × ℚ × ℚ × ℚ)
    (h : parseSensor m = some r) : containsBlink m = false := by
  by_contra hb
  have hb2 : containsBlink m = true := by
    simpa using hb
  have hBmem : 'B' ∈ m := mem_of_containsSeq blinkKeyword m hb2 'B' (by decide)
  rcases mem_splitOnComma m 'B' hBmem with h1 | ⟨p, hp1, hp2⟩
  · exact absurd h1 (by decide)
  · obtain ⟨q, hq⟩ := parseSensor_fields m r h p hp1
    have hfc := parseFloat_chars p q hq 'B' hp2
    exact absurd hfc (by decide)

/-- Stripping whitespace from either blink command is a no-op. -/
theorem pyStripWS_decideCommand (gx : ℚ) :
    pyStripWS (decideCommand gx) = decideCommand gx := by
  unfold decideCommand
  split
  · decide
  · decide

/-- Trace of one iteration on a command (keyword) message. -/
theorem processMessage_blink (c : PyStr) (h : containsBlink c = true) :
    processMessage c =
      [.log .receivedCommand, .write (utf8Encode c), .log .sentCommand, .sleep 1] := by
  simp [processMessage, processBody, h]

/-- Trace of one iteration on a well-formed sensor message. -/
theorem processMessage_sensor (m : PyStr) (r : ℚ × ℚ × ℚ × ℚ × ℚ × ℚ)
    (hb : containsBlink m = false) (h : parseSensor m = some r) :
    processMessage m =
      [.log .parsedIMU, .write (utf8Encode (pyStripWS (decideCommand r.1))),
       .log .sentCommand, .sleep 1] := by
  simp [processMessage, processBody, hb, h]

/-- Trace of one iteration on a malformed message: the `ValueError` is
caught and only the error log and the sleep happen. -/
theorem processMessage_error (m : PyStr) (hb : containsBlink m = false)
    (h : parseSensor m = none) :
    processMessage m = [.log .valueErrorCaught, .sleep 1] := by
  simp [processMessage, processBody, hb, h]

/-- Writes of a concatenated trace. -/
theorem writesOf_append (a b : List Event) :
    writesOf (a ++ b) = writesOf a ++ writesOf b := by
  simp [writesOf]

/-- The devel command loop writes exactly the queued items, UTF-8 encoded,
in order. -/
theorem writesOf_devel_command_loop (q : List PyStr) :
    writesOf (devel_command_loop q) = q.map utf8Encode := by
  induction q with
  | nil => rfl
  | cons m rest ih =>
    simp only [devel_command_loop, writesOf, List.filterMap_cons, List.map_cons] at ih ⊢
    rw [ih]

/-- C1: for every valid payload of six comma-separated decimal fields, the
pipeline parses the fields in the fixed order gx, gy, gz, ax, ay, az and
writes `BLINK_1S` when `gx > 0.50` and `BLINK_5S` otherwise; in
particular `"0.60,0,0,0,0,0"` yields `BLINK_1S` and `"0.10,0,0,0,0,0"`
yields `BLINK_5S`. -/
theorem claim1_threshold_pipeline :
    (∀ (m : PyStr) (gx gy gz ax ay az : ℚ),
      parseSensor m = some (gx, gy, gz, ax, ay, az) →
      writesOf (processMessage m) = [utf8Encode (decideCommand gx)] ∧
      decideCommand gx = (if gx > mkRat 1 2 then "BLINK_1S".data else "BLINK_5S".data)) ∧
    (mkRat 1 2 : ℚ) = 1 / 2 ∧
    writesOf (processMessage "0.60,0,0,0,0,0".data) = [utf8Encode "BLINK_1S".data] ∧
    writesOf (processMessage "0.10,0,0,0,0,0".data) = [utf8Encode "BLINK_5S".data] := by
  refine ⟨?_, by norm_num [Rat.mkRat_eq_div], by decide, by decide⟩
  intro m gx gy gz ax ay az h
  have hb := parseSensor_no_blink m _ h
  rw [processMessage_sensor m _ hb h]
  exact ⟨by simp [writesOf, pyStripWS_decideCommand], rfl⟩

/-- Witness for C1 at the concrete input `"0.60,0,0,0,0,0"`. -/
theorem claim1_threshold_pipeline_witness :
    writesOf (processMessage "0.60,0,0,0,0,0".data) =
      [utf8Encode (decideCommand (mkRat 3 5))] ∧
    decideCommand (mkRat 3 5) =
      (if (mkRat 3 5 : ℚ) > mkRat 1 2 then "BLINK_1S".data else "BLINK_5S".data) :=
  claim1_threshold_pipeline.1 "0.60,0,0,0,0,0".data
    (mkRat 3 5) 0 0 0 0 0 (by decide)

/-- C2: every malformed payload (wrong field count, non-numeric token, or
invalid encoding) produces no sensor reading — the reading is rejected as
a whole — records a drop (the error log), and the decode exception never
propagates past its handler boundary: the handler and the write loop both
return normally with the queue unchanged and no write issued. -/
theorem claim2_malformed_rejected :
    (∀ (q : List PyStr) (data : List ℕ), utf8Decode data = none →
      handlerBody q data = .error .unicodeDecodeError ∧
      handler q data = (q, [.log .notificationError]) ∧
      dropCount (handler q data).2 = 1) ∧
    (∀ m : PyStr, containsBlink m = false → parseSensor m = none →
      processBody m = .error .valueError ∧
      processMessage m = [.log .valueErrorCaught, .sleep 1] ∧
      writesOf (processMessage m) = [] ∧
      dropCount (processMessage m) = 1) := by
  constructor
  · intro q data hd
    refine ⟨?_, ?_, ?_⟩ <;> simp [handlerBody, handler, hd, dropCount]
  · intro m hb hp
    have he := processMessage_error m hb hp
    refine ⟨by simp [processBody, hb, hp], he, ?_, ?_⟩
    · rw [he]
      decide
    · rw [he]
      decide

/-- Witness for C2 at the invalid byte `0xFF` and the non-numeric
single-field payload `"abc"`. -/
theorem claim2_malformed_rejected_witness :
    handler [] [255] = ([], [.log .notificationError]) ∧
    processMessage "abc".data = [.log .valueErrorCaught, .sleep 1] :=
  ⟨(claim2_malformed_rejected.1 [] [255] (by decide)).2.1,
   (claim2_malformed_rejected.2 "abc".data (by decide) (by decide)).2.1⟩

/-- C3 counterexample: the notification channel is a `Queue()` with no
`maxsize`, so no capacity bounds its size — for every candidate capacity
a put can exceed it, refuting the claimed bound. -/
theorem claim3_bounded_queue_counterexample :
    ¬ ∃ cap : ℕ, ∀ (q : List PyStr) (m : PyStr), (queuePut q m).length ≤ cap := by
  rintro ⟨cap, h⟩
  have h2 := h (List.replicate cap []) []
  simp [queuePut] at h2

/-- C3 amended: the channel is unbounded; a successful handler invocation
always appends the decoded reading at the tail (the newest item is kept,
never dropped), growing the queue by exactly one. -/
theorem claim3_unbounded_queue_amended :
    ∀ (q : List PyStr) (data : List ℕ) (s : PyStr), utf8Decode data = some s →
      (handler q data).1 = queuePut q s ∧
      (handler q data).1.length = q.length + 1 ∧
      (handler q data).1.getLast? = some s := by
  intro q data s hd
  refine ⟨?_, ?_, ?_⟩ <;> simp [handler, handlerBody, hd, queuePut]

/-- Witness for the amended C3 at the one-byte payload `"A"`. -/
theorem claim3_unbounded_queue_amended_witness :
    (handler [] [65]).1 = queuePut [] "A".data ∧
    (handler [] [65]).1.length = List.length ([] : List PyStr) + 1 ∧
    (handler [] [65]).1.getLast? = some "A".data :=
  claim3_unbounded_queue_amended [] [65] "A".data (by decide)

/-- C4: commands queued earlier are written earlier — the write loop
consumes the queue in strict FIFO order, so for any two command messages
c1 before c2 the transport write of c1 precedes that of c2. -/
theorem claim4_fifo_order :
    ∀ (xs ys zs : List PyStr) (c1 c2 : PyStr),
      containsBlink c1 = true → containsBlink c2 = true →
      writesOf (process_queue_and_write (xs ++ c1 :: (ys ++ c2 :: zs))) =
        writesOf (process_queue_and_write xs) ++
          utf8Encode c1 ::
            (writesOf (process_queue_and_write ys) ++
              utf8Encode c2 :: writesOf (process_queue_and_write zs)) := by
  intro xs ys zs c1 c2 h1 h2
  simp only [process_queue_and_write, List.flatMap_append, List.flatMap_cons]
  simp only [writesOf, List.filterMap_append]
  rw [processMessage_blink c1 h1, processMessage_blink c2 h2]
  simp

/-- Witness for C4 with the two commands adjacent in the queue. -/
theorem claim4_fifo_order_witness :
    writesOf (process_queue_and_write
        ([] ++ "BLINK_1S".data :: ([] ++ "BLINK_5S".data :: []))) =
      writesOf (process_queue_and_write []) ++
        utf8Encode "BLINK_1S".data ::
          (writesOf (process_queue_and_write []) ++
            utf8Encode "BLINK_5S".data :: writesOf (process_queue_and_write [])) :=
  claim4_fifo_order [] [] [] "BLINK_1S".data "BLINK_5S".data (by decide) (by decide)

/-- C5: a dequeued payload containing the recognized command keyword
`"BLINK"` is passed through as a control message — written as-is, not
parsed as sensor data; any other payload is parsed as six comma-separated
floats, with the write determined by the parse result. -/
theorem claim5_keyword_routing :
    ∀ m : PyStr,
      (containsBlink m = true →
        processBody m =
          .ok [.log .receivedCommand, .write (utf8Encode m), .log .sentCommand] ∧
        writesOf (processMessage m) = [utf8Encode m]) ∧
      (containsBlink m = false →
        (∀ r : ℚ × ℚ × ℚ × ℚ × ℚ × ℚ, parseSensor m = some r →
          writesOf (processMessage m) = [utf8Encode (pyStripWS (decideCommand r.1))]) ∧
        (parseSensor m = none → writesOf (processMessage m) = [])) := by
  intro m
  constructor
  · intro h
    refine ⟨by simp [processBody, h], ?_⟩
    rw [processMessage_blink m h]
    simp [writesOf]
  · intro h
    constructor
    · intro r hr
      rw [processMessage_sensor m r h hr]
      simp [writesOf]
    · intro hn
      rw [processMessage_error m h hn]
      decide

/-- Witness for C5 at the command payload `"BLINK_1S"`. -/
theorem claim5_keyword_routing_witness :
    processBody "BLINK_1S".data =
      .ok [.log .receivedCommand, .write (utf8Encode "BLINK_1S".data), .log .sentCommand] ∧
    writesOf (processMessage "BLINK_1S".data) = [utf8Encode "BLINK_1S".data] :=
  (claim5_keyword_routing "BLINK_1S".data).1 (by decide)

/-- C6 counterexample: when the device selector cannot be resolved,
`enable_response` exits with code 0, not a non-zero code — the claim that
`DeviceNotFound` terminates the process with a non-zero exit code is
false. -/
theorem claim6_exit_code_counterexample :
    ¬ (∀ c : ℕ, enableScriptExit .notFound = some c → c ≠ 0) := by
  intro h
  exact h 0 rfl rfl

/-- C6 amended: when the device selector cannot be resolved, both mains
log the error and return normally, and the `enable_response` process then
ends with exit code 0 — the same code as a clean shutdown, not a distinct
non-zero failure code. -/
theorem claim6_device_not_found_amended :
    enableScriptExit .notFound = some 0 ∧
    enable_main .notFound = (.returned, [.log .deviceNotFoundMsg]) ∧
    devel_main_scan .notFound = (.returned, [.log .deviceNotFoundMsg]) :=
  ⟨rfl, rfl, rfl⟩

/-- C7 counterexample: `enable_response.py` accepts an invocation that
supplies both `--name` and `--address`, so the flags are not mutually
exclusive in that script, refuting the claim for "either script". -/
theorem claim7_selector_exclusive_counterexample :
    enableAccepts ⟨some "nano".data, some "AA".data⟩ = true ∧
    exactlyOneSelector ⟨some "nano".data, some "AA".data⟩ = false := by
  constructor
  · decide
  · decide

/-- C7 amended: `devel_notifications.py` does enforce name-xor-address
(mutually exclusive, one required), while `enable_response.py` instead
requires `--name` unconditionally and independently accepts `--address`
with no exclusivity. -/
theorem claim7_selector_amended :
    (∀ i : CLIInvocation, develAccepts i = exactlyOneSelector i) ∧
    (∀ i : CLIInvocation, enableAccepts i = i.name.isSome) := by
  constructor <;> intro i <;> rcases i with ⟨n, a⟩ <;> cases n <;> cases a <;> rfl

/-- C8 counterexample: a burst of two commands is separated by a one-second
sleep, so a burst under the limit is not dispatched without added delay —
the spacing is not a token/leaky-bucket limiter. -/
theorem claim8_rate_limiter_counterexample :
    delayBetweenFirstTwoWrites
      (process_queue_and_write ["BLINK_1S".data, "BLINK_1S".data]) = 1 ∧
    (1 : ℕ) ≠ 0 := by
  constructor
  · decide
  · decide

/-- C8 amended: the inter-write spacing is a fixed `asyncio.sleep(1)` in
the `finally` block of every iteration — every processed message ends
with the one-second sleep, and any two consecutively queued commands are
separated by exactly one second of sleep. -/
theorem claim8_fixed_sleep_amended :
    (∀ m : PyStr, (processMessage m).getLast? = some (.sleep 1)) ∧
    (∀ c1 c2 : PyStr, containsBlink c1 = true → containsBlink c2 = true →
      delayBetweenFirstTwoWrites (process_queue_and_write [c1, c2]) = 1) := by
  constructor
  · intro m
    simp [processMessage]
  · intro c1 c2 h1 h2
    simp only [process_queue_and_write, List.flatMap_cons, List.flatMap_nil, List.append_nil]
    rw [processMessage_blink c1 h1, processMessage_blink c2 h2]
    simp [delayBetweenFirstTwoWrites, dropThroughFirstWrite, takeUntilWrite, sleepSum]

/-- Witness for the amended C8 at a concrete two-command burst. -/
theorem claim8_fixed_sleep_amended_witness :
    delayBetweenFirstTwoWrites
      (process_queue_and_write ["BLINK_5S".data, "BLINK_5S".data]) = 1 :=
  claim8_fixed_sleep_amended.2 "BLINK_5S".data "BLINK_5S".data (by decide) (by decide)

/-- C9: running `devel_notifications.py` directly (with any invocation its
parser accepts) raises `TypeError` before any scanning, because the entry
point calls `main(args, queue)` with two arguments while `main` requires
six parameters. -/
theorem claim9_entry_arity_typeerror :
    ∀ i : CLIInvocation, develAccepts i = true →
      develScriptStart i = (.raised .typeError, 0) ∧
      develEntryCall = .typeError ∧
      develMainParams.length = 6 ∧ develEntryArgs.length = 2 := by
  intro i h
  refine ⟨?_, rfl, rfl, rfl⟩
  simp only [develScriptStart, h, if_true]
  rfl

/-- Witness for C9 at the invocation `--name nano33`. -/
theorem claim9_entry_arity_typeerror_witness :
    develScriptStart ⟨some "nano33".data, none⟩ = (.raised .typeError, 0) ∧
    develEntryCall = .typeError ∧
    develMainParams.length = 6 ∧ develEntryArgs.length = 2 :=
  claim9_entry_arity_typeerror ⟨some "nano33".data, none⟩ (by decide)

/-- C10: every item dequeued by `devel_notifications.main`'s command loop
— including raw sensor strings pushed by its own notification handler —
is UTF-8 encoded and written verbatim to the LED characteristic, with no
keyword filtering, parsing or threshold decision: the writes are exactly
the queued strings, and a sensor string is written as itself, not as a
blink command. -/
theorem claim10_devel_loop_verbatim :
    (∀ q : List PyStr, writesOf (devel_command_loop q) = q.map utf8Encode) ∧
    writesOf (devel_command_loop ["0.60,0,0,0,0,0".data]) =
      [utf8Encode "0.60,0,0,0,0,0".data] ∧
    utf8Encode "0.60,0,0,0,0,0".data ≠ utf8Encode "BLINK_1S".data ∧
    utf8Encode "0.60,0,0,0,0,0".data ≠ utf8Encode "BLINK_5S".data := by
  refine ⟨writesOf_devel_command_loop, ?_, ?_, ?_⟩
  · decide
  · decide
  · decide

end ThesisBLE
